import Mathlib

/-!
# Verification of the windowed connection-list projection (`connlistmodel.cpp`)

Shallow embedding of `ConnListModel` from `src/ui/model/connlistmodel.cpp`:
the identifier-range tracking (`updateConnIdRange`, `updateConnRows`,
`resetConnRows`, `removeConnRows`, `insertConnRows`), the derived row count
(`doSqlCount`), the row-to-identifier mapping used by `updateTableRow`, and the
row decode performed by `updateTableRow`.

`qint64` values are modelled as `Int`; the C++ narrowing conversion
`int(x)` from `qint64` to 32-bit `int` is modelled by `toInt32` (two's
complement wrap).  Qt signal emissions (`beginRemoveRows` /
`endRemoveRows`, etc.) and cache invalidation are modelled as an event trace.
-/

namespace Fort

/-- Two's-complement narrowing of a 64-bit integer to a 32-bit signed `int`,
modelling the C++ conversions `int removedCount = idMin - oldIdMin;`,
`int addedCount = idMax - oldIdMax;`, `int endRow = oldIdMax - idMin + 1;`
and `int(connIdMax() - connIdMin())`. -/
def toInt32 (x : Int) : Int :=
  (x + 2 ^ 31) % 2 ^ 32 - 2 ^ 31

/-- The model's stored identifier range: members `m_connIdMin` / `m_connIdMax`
of `ConnListModel`. -/
structure ConnModelState where
  connIdMin : Int
  connIdMax : Int
deriving DecidableEq, Repr

/-- Observable events of one range-change application.  `aboutToRemoveRows` /
`aboutToInsertRows` stand for Qt's `beginRemoveRows` / `beginInsertRows`
pre-signals; `rowsRemoved`, `rowsInserted` and `modelReset` are the
structural-change notifications (emitted by `endRemoveRows`,
`endInsertRows` and the reset); `invalidateCache` is `invalidateRowCache()`;
`clearHostCache` is `hostInfoCache()->clear()`. -/
inductive Event where
  | aboutToRemoveRows (first last : Int)
  | rowsRemoved (first last : Int)
  | aboutToInsertRows (first last : Int)
  | rowsInserted (first last : Int)
  | modelReset
  | invalidateCache
  | clearHostCache
deriving DecidableEq, Repr

/-- Modelled from the spec: the body of `TableSqlModel::reset`, called by
`ConnListModel::resetConnRows`, is not under `src/`; per the spec the
projection invalidates the row cache before emitting the structural
reset notification. -/
def resetNotifyTrace : List Event :=
  [Event.invalidateCache, Event.modelReset]

/-- Embeds `ConnListModel::resetConnRows`: store the new bounds, then `reset()`. -/
def resetConnRows (_st : ConnModelState) (idMin idMax : Int) :
    ConnModelState × List Event :=
  (⟨idMin, idMax⟩, resetNotifyTrace)

/-- Embeds `ConnListModel::removeConnRows`: `beginRemoveRows({}, 0, count - 1)`,
store the new minimum, `invalidateRowCache()`, `endRemoveRows()`. -/
def removeConnRows (st : ConnModelState) (idMin : Int) (count : Int) :
    ConnModelState × List Event :=
  ({ st with connIdMin := idMin },
   [Event.aboutToRemoveRows 0 (count - 1), Event.invalidateCache,
    Event.rowsRemoved 0 (count - 1)])

/-- Embeds `ConnListModel::insertConnRows`: `beginInsertRows({}, endRow, endRow +
count - 1)`, store the new maximum, `invalidateRowCache()`, `endInsertRows()`. -/
def insertConnRows (st : ConnModelState) (idMax : Int) (endRow count : Int) :
    ConnModelState × List Event :=
  ({ st with connIdMax := idMax },
   [Event.aboutToInsertRows endRow (endRow + count - 1), Event.invalidateCache,
    Event.rowsInserted endRow (endRow + count - 1)])

/-- Embeds `ConnListModel::updateConnRows`: classify the range change and apply it.
Mirrors the source: reset when `idMin < oldIdMin || idMin >= oldIdMax
|| idMax < oldIdMax || oldIdMax == 0`; otherwise trim by the (32-bit)
removed count when positive, then grow by the (32-bit) added count when
positive, inserting at `int(oldIdMax - idMin + 1)`. -/
def updateConnRows (st : ConnModelState) (oldIdMin oldIdMax idMin idMax : Int) :
    ConnModelState × List Event :=
  if (idMin < oldIdMin ∨ idMin ≥ oldIdMax) ∨ (idMax < oldIdMax ∨ oldIdMax = 0) then
    resetConnRows st idMin idMax
  else
    let removedCount := toInt32 (idMin - oldIdMin)
    let p1 := if removedCount > 0 then removeConnRows st idMin removedCount else (st, [])
    let addedCount := toInt32 (idMax - oldIdMax)
    let endRow := toInt32 (oldIdMax - idMin + 1)
    let p2 := if addedCount > 0 then insertConnRows p1.1 idMax endRow addedCount
              else (p1.1, [])
    (p2.1, p1.2 ++ p2.2)

/-- Embeds `ConnListModel::updateConnIdRange`, with the externally observed range
passed as arguments: early-out when unchanged, clear the host-name cache
when the observed `idMax` is `0`, then `updateConnRows`. -/
def updateConnIdRange (st : ConnModelState) (idMin idMax : Int) :
    ConnModelState × List Event :=
  if idMin = st.connIdMin ∧ idMax = st.connIdMax then (st, [])
  else
    ((updateConnRows st st.connIdMin st.connIdMax idMin idMax).1,
     (if idMax = 0 then [Event.clearHostCache] else []) ++
       (updateConnRows st st.connIdMin st.connIdMax idMin idMax).2)

/-- Embeds `ConnListModel::doSqlCount`:
`connIdMax() <= 0 ? 0 : int(connIdMax() - connIdMin()) + 1`. -/
def doSqlCount (st : ConnModelState) : Int :=
  if st.connIdMax ≤ 0 then 0 else toInt32 (st.connIdMax - st.connIdMin) + 1

/-- The identifier queried for a row: `qint64 connId = connIdMin() + row;`
(first line of `ConnListModel::updateTableRow`). -/
def rowConnId (st : ConnModelState) (row : Int) : Int :=
  st.connIdMin + row

/-! ## Arithmetic facts about the 32-bit narrowing -/

theorem toInt32_eq_self (d : Int) (h1 : -2 ^ 31 ≤ d) (h2 : d < 2 ^ 31) :
    toInt32 d = d := by
  unfold toInt32
  omega

theorem toInt32_dvd_sub (d : Int) : (2 ^ 32 : Int) ∣ toInt32 d - d := by
  unfold toInt32
  omega

theorem toInt32_lb (d : Int) : -2 ^ 31 ≤ toInt32 d := by
  unfold toInt32
  omega

theorem toInt32_ub (d : Int) : toInt32 d < 2 ^ 31 := by
  unfold toInt32
  omega

theorem doSqlCount_mk (a b : Int) :
    doSqlCount ⟨a, b⟩ = if b ≤ 0 then 0 else toInt32 (b - a) + 1 := rfl

theorem rowConnId_mk (a b i : Int) : rowConnId ⟨a, b⟩ i = a + i := rfl

/-! ## Branch shape of `updateConnRows` -/

/-- In the non-reset branch, `updateConnRows` emits the trim (when the 32-bit
removed count is positive) followed by the grow (when the 32-bit added count
is positive). -/
theorem updateConnRows_incremental (st : ConnModelState)
    (oldIdMin oldIdMax idMin idMax : Int)
    (h : ¬ ((idMin < oldIdMin ∨ idMin ≥ oldIdMax) ∨ (idMax < oldIdMax ∨ oldIdMax = 0))) :
    updateConnRows st oldIdMin oldIdMax idMin idMax =
      (⟨if toInt32 (idMin - oldIdMin) > 0 then idMin else st.connIdMin,
        if toInt32 (idMax - oldIdMax) > 0 then idMax else st.connIdMax⟩,
       (if toInt32 (idMin - oldIdMin) > 0 then
          [Event.aboutToRemoveRows 0 (toInt32 (idMin - oldIdMin) - 1),
           Event.invalidateCache,
           Event.rowsRemoved 0 (toInt32 (idMin - oldIdMin) - 1)]
        else []) ++
       (if toInt32 (idMax - oldIdMax) > 0 then
          [Event.aboutToInsertRows (toInt32 (oldIdMax - idMin + 1))
             (toInt32 (oldIdMax - idMin + 1) + toInt32 (idMax - oldIdMax) - 1),
           Event.invalidateCache,
           Event.rowsInserted (toInt32 (oldIdMax - idMin + 1))
             (toInt32 (oldIdMax - idMin + 1) + toInt32 (idMax - oldIdMax) - 1)]
        else [])) := by
  simp only [updateConnRows, if_neg h]
  by_cases hr : toInt32 (idMin - oldIdMin) > 0 <;>
    by_cases ha : toInt32 (idMax - oldIdMax) > 0 <;>
      simp [hr, ha, removeConnRows, insertConnRows]

/-- C1: for every pair of distinct ranges, `updateConnRows` emits a full
`Reset(new)` exactly when `newIdMin < oldIdMin`, or `newIdMin >= oldIdMax`,
or `newIdMax < oldIdMax`, or the old window was empty (`oldIdMax == 0`). -/
theorem updateConnRows_reset_iff (st : ConnModelState)
    (oldIdMin oldIdMax idMin idMax : Int)
    (hne : ¬ (idMin = oldIdMin ∧ idMax = oldIdMax)) :
    updateConnRows st oldIdMin oldIdMax idMin idMax = (⟨idMin, idMax⟩, resetNotifyTrace) ↔
      (idMin < oldIdMin ∨ idMin ≥ oldIdMax ∨ idMax < oldIdMax ∨ oldIdMax = 0) := by
  constructor
  · intro hEq
    by_contra hc
    have h' : ¬ ((idMin < oldIdMin ∨ idMin ≥ oldIdMax) ∨ (idMax < oldIdMax ∨ oldIdMax = 0)) := by
      tauto
    rw [updateConnRows_incremental st oldIdMin oldIdMax idMin idMax h'] at hEq
    by_cases hr : toInt32 (idMin - oldIdMin) > 0 <;>
      by_cases ha : toInt32 (idMax - oldIdMax) > 0 <;>
        simp [hr, ha, resetNotifyTrace] at hEq
  · intro hc
    have h' : (idMin < oldIdMin ∨ idMin ≥ oldIdMax) ∨ (idMax < oldIdMax ∨ oldIdMax = 0) := by
      tauto
    unfold updateConnRows
    rw [if_pos h']
    rfl

/-- Witness for C1, the spec's Scenario D: old window `(5,12)`, new window
`(20,25)` is disjoint, so the classification is a full reset. -/
theorem updateConnRows_reset_iff_witness :
    updateConnRows ⟨5, 12⟩ 5 12 20 25 = (⟨20, 25⟩, resetNotifyTrace) :=
  (updateConnRows_reset_iff ⟨5, 12⟩ 5 12 20 25 (by decide)).mpr (by decide)

/-- Counterexample to C2 as stated: for the single-row old window `(5,5)`
(`oldIdMax = 5 > 0`) and new window `(5,6)` (`newIdMin = oldIdMin`,
`newIdMax = oldIdMax + 1`), the code takes the reset branch (because
`idMin >= oldIdMax` holds), so no Grow edit with position
`oldIdMax - newIdMin + 1 = 1` and count `1` is produced. -/
theorem updateConnRows_grow_cex :
    ¬ ((updateConnRows ⟨5, 5⟩ 5 5 5 6).2 =
        [Event.aboutToInsertRows 1 1, Event.invalidateCache, Event.rowsInserted 1 1]) := by
  decide

/-- C2 (amended): for every old range with `oldIdMax > 0` and
`oldIdMin < oldIdMax`, and every new range with `newIdMin = oldIdMin` and
`newIdMax = oldIdMax + k` for `k > 0` such that the new row count stays
below `2^31`, the range change produces exactly one Grow edit with new
maximum `newIdMax`, insertion position `oldIdMax - newIdMin + 1` and count
`k`, and afterwards `rowCount()` equals the old `rowCount()` plus `k`. -/
theorem updateConnRows_grow (oldIdMin oldIdMax k : Int)
    (hpos : 0 < oldIdMax) (hlt : oldIdMin < oldIdMax) (hk : 0 < k)
    (hfit : oldIdMax + k - oldIdMin < 2 ^ 31) :
    updateConnRows ⟨oldIdMin, oldIdMax⟩ oldIdMin oldIdMax oldIdMin (oldIdMax + k) =
      (⟨oldIdMin, oldIdMax + k⟩,
       [Event.aboutToInsertRows (oldIdMax - oldIdMin + 1) (oldIdMax - oldIdMin + k),
        Event.invalidateCache,
        Event.rowsInserted (oldIdMax - oldIdMin + 1) (oldIdMax - oldIdMin + k)]) ∧
    doSqlCount ⟨oldIdMin, oldIdMax + k⟩ = doSqlCount ⟨oldIdMin, oldIdMax⟩ + k := by
  have h' : ¬ ((oldIdMin < oldIdMin ∨ oldIdMin ≥ oldIdMax) ∨
      (oldIdMax + k < oldIdMax ∨ oldIdMax = 0)) := by omega
  have hr : toInt32 (oldIdMin - oldIdMin) = oldIdMin - oldIdMin :=
    toInt32_eq_self _ (by omega) (by omega)
  have ha : toInt32 (oldIdMax + k - oldIdMax) = oldIdMax + k - oldIdMax :=
    toInt32_eq_self _ (by omega) (by omega)
  have he : toInt32 (oldIdMax - oldIdMin + 1) = oldIdMax - oldIdMin + 1 :=
    toInt32_eq_self _ (by omega) (by omega)
  constructor
  · rw [updateConnRows_incremental _ oldIdMin oldIdMax oldIdMin (oldIdMax + k) h',
      hr, ha, he, if_neg (by omega), if_pos (by omega), if_neg (by omega), if_pos (by omega),
      show oldIdMax - oldIdMin + 1 + (oldIdMax + k - oldIdMax) - 1 = oldIdMax - oldIdMin + k
        from by ring]
    rfl
  · rw [doSqlCount_mk, doSqlCount_mk, if_neg (by omega), if_neg (by omega),
      toInt32_eq_self (oldIdMax + k - oldIdMin) (by omega) (by omega),
      toInt32_eq_self (oldIdMax - oldIdMin) (by omega) (by omega)]
    ring

/-- Witness for C2: the spec's Scenario B, window `(5,10)` then `(5,12)`:
one Grow edit at position `6` covering rows `6..7`, row count `6 → 8`. -/
theorem updateConnRows_grow_witness :
    updateConnRows ⟨5, 10⟩ 5 10 5 12 =
      (⟨5, 12⟩, [Event.aboutToInsertRows 6 7, Event.invalidateCache,
                 Event.rowsInserted 6 7]) ∧
    doSqlCount ⟨5, 12⟩ = doSqlCount ⟨5, 10⟩ + 2 := by
  obtain ⟨h1, h2⟩ := updateConnRows_grow 5 10 2 (by decide) (by decide) (by decide) (by decide)
  norm_num at h1 h2
  exact ⟨h1, h2⟩

/-- Counterexample to C3 as stated: with the empty old range `(-5, 0)`
(`oldIdMax = 0` is the empty sentinel, so any `idMin` is allowed) and the
new range `(-3, 0)` we have `newIdMin = oldIdMin + 2`,
`0 < 2 < oldIdMax - oldIdMin = 5` and `newIdMax = oldIdMax`, yet the code
takes the reset branch (`oldIdMax == 0`), so no Trim edit of count `2` is
produced. -/
theorem updateConnRows_trim_cex :
    ¬ ((updateConnRows ⟨-5, 0⟩ (-5) 0 (-3) 0).2 =
        [Event.aboutToRemoveRows 0 1, Event.invalidateCache, Event.rowsRemoved 0 1]) := by
  decide

/-- C3 (amended): for every old range with `oldIdMax ≠ 0` and every new range
with `newIdMin = oldIdMin + k` where `0 < k < oldIdMax - oldIdMin` and
`k < 2^31`, and `newIdMax = oldIdMax`, the range change produces exactly one
Trim edit with new minimum `newIdMin` and removed count `k`, and afterwards
the identifier mapped to row `0` equals `newIdMin`. -/
theorem updateConnRows_trim (oldIdMin oldIdMax k : Int)
    (hmax : oldIdMax ≠ 0) (hk : 0 < k) (hkl : k < oldIdMax - oldIdMin)
    (hk31 : k < 2 ^ 31) :
    updateConnRows ⟨oldIdMin, oldIdMax⟩ oldIdMin oldIdMax (oldIdMin + k) oldIdMax =
      (⟨oldIdMin + k, oldIdMax⟩,
       [Event.aboutToRemoveRows 0 (k - 1), Event.invalidateCache,
        Event.rowsRemoved 0 (k - 1)]) ∧
    rowConnId ⟨oldIdMin + k, oldIdMax⟩ 0 = oldIdMin + k := by
  have h' : ¬ ((oldIdMin + k < oldIdMin ∨ oldIdMin + k ≥ oldIdMax) ∨
      (oldIdMax < oldIdMax ∨ oldIdMax = 0)) := by omega
  have hr : toInt32 (oldIdMin + k - oldIdMin) = oldIdMin + k - oldIdMin :=
    toInt32_eq_self _ (by omega) (by omega)
  have ha : toInt32 (oldIdMax - oldIdMax) = oldIdMax - oldIdMax :=
    toInt32_eq_self _ (by omega) (by omega)
  constructor
  · rw [updateConnRows_incremental _ oldIdMin oldIdMax (oldIdMin + k) oldIdMax h',
      hr, ha, if_pos (by omega), if_neg (by omega), if_pos (by omega), if_neg (by omega),
      show oldIdMin + k - oldIdMin = k from by ring]
    rfl
  · rw [rowConnId_mk]
    ring

/-- Witness for C3: the spec's Scenario C, window `(5,12)` then `(8,12)`:
one Trim edit removing rows `0..2`, and row `0` afterwards maps to `8`. -/
theorem updateConnRows_trim_witness :
    updateConnRows ⟨5, 12⟩ 5 12 8 12 =
      (⟨8, 12⟩, [Event.aboutToRemoveRows 0 2, Event.invalidateCache,
                 Event.rowsRemoved 0 2]) ∧
    rowConnId ⟨8, 12⟩ 0 = 8 := by
  obtain ⟨h1, h2⟩ := updateConnRows_trim 5 12 3 (by decide) (by decide) (by decide) (by decide)
  norm_num at h1 h2
  exact ⟨h1, h2⟩

/-- C4: whenever a range change yields both a positive removed count and a
positive added count without triggering a reset, the Trim edit is applied
before the Grow edit, and the Grow's insertion position is computed as
`oldIdMax - newIdMin + 1` (narrowed to 32 bits). -/
theorem updateConnRows_trim_then_grow (st : ConnModelState)
    (oldIdMin oldIdMax idMin idMax : Int)
    (hnr : ¬ ((idMin < oldIdMin ∨ idMin ≥ oldIdMax) ∨ (idMax < oldIdMax ∨ oldIdMax = 0)))
    (hr : 0 < toInt32 (idMin - oldIdMin)) (ha : 0 < toInt32 (idMax - oldIdMax)) :
    (updateConnRows st oldIdMin oldIdMax idMin idMax).2 =
      [Event.aboutToRemoveRows 0 (toInt32 (idMin - oldIdMin) - 1),
       Event.invalidateCache,
       Event.rowsRemoved 0 (toInt32 (idMin - oldIdMin) - 1),
       Event.aboutToInsertRows (toInt32 (oldIdMax - idMin + 1))
         (toInt32 (oldIdMax - idMin + 1) + toInt32 (idMax - oldIdMax) - 1),
       Event.invalidateCache,
       Event.rowsInserted (toInt32 (oldIdMax - idMin + 1))
         (toInt32 (oldIdMax - idMin + 1) + toInt32 (idMax - oldIdMax) - 1)] := by
  rw [updateConnRows_incremental st oldIdMin oldIdMax idMin idMax hnr]
  simp [hr, ha]

/-- Witness for C4: window `(5,12)` then `(8,14)`: trim of rows `0..2` is
emitted before the grow at position `12 - 8 + 1 = 5` covering rows `5..6`. -/
theorem updateConnRows_trim_then_grow_witness :
    (updateConnRows ⟨5, 12⟩ 5 12 8 14).2 =
      [Event.aboutToRemoveRows 0 2, Event.invalidateCache, Event.rowsRemoved 0 2,
       Event.aboutToInsertRows 5 6, Event.invalidateCache, Event.rowsInserted 5 6] := by
  have h := updateConnRows_trim_then_grow ⟨5, 12⟩ 5 12 8 14 (by decide) (by decide) (by decide)
  rw [h]
  decide

/-- Counterexample to C5 as stated: for the stored range `(0, 2^31)` the
difference `idMax - idMin = 2^31` does not fit in a 32-bit `int`, so
`doSqlCount` (the `rowCount()` source) wraps and does not return
`idMax - idMin + 1`. -/
theorem doSqlCount_cex : doSqlCount ⟨0, 2 ^ 31⟩ ≠ 2 ^ 31 + 1 := by decide

/-- C5 (amended): `rowCount()` returns `0` when `idMax <= 0`, and
`idMax - idMin + 1` when `idMax > 0`, provided the range is well formed
(`idMin <= idMax`) and the difference fits in 32 bits
(`idMax - idMin < 2^31`; otherwise the narrowing in `doSqlCount` wraps,
see the 32-bit narrowing claim); for every in-range row index `i` the
identifier used to fetch that row equals `idMin + i`. -/
theorem doSqlCount_rowConnId_spec (st : ConnModelState) :
    (st.connIdMax ≤ 0 → doSqlCount st = 0) ∧
    (0 < st.connIdMax → st.connIdMin ≤ st.connIdMax →
      st.connIdMax - st.connIdMin < 2 ^ 31 →
      doSqlCount st = st.connIdMax - st.connIdMin + 1) ∧
    (∀ i : Int, 0 ≤ i → i < doSqlCount st → rowConnId st i = st.connIdMin + i) := by
  refine ⟨fun h => by rw [doSqlCount, if_pos h], fun h1 h2 h3 => ?_, fun i _ _ => rfl⟩
  rw [doSqlCount, if_neg (by omega),
    toInt32_eq_self (st.connIdMax - st.connIdMin) (by omega) (by omega)]

/-- Witness for C5: for the window `(5,12)` the row count is `8` and row `3`
is fetched under identifier `8`. -/
theorem doSqlCount_rowConnId_spec_witness :
    doSqlCount ⟨5, 12⟩ = 8 ∧ rowConnId ⟨5, 12⟩ 3 = 8 := by
  have h1 := (doSqlCount_rowConnId_spec ⟨5, 12⟩).2.1 (by decide) (by decide) (by decide)
  have h2 := (doSqlCount_rowConnId_spec ⟨5, 12⟩).2.2 3 (by decide) (by rw [h1]; decide)
  norm_num at h1 h2
  exact ⟨h1, h2⟩

/-- The error kinds of the projection. -/
inductive ModelError where
  | outOfRange
deriving DecidableEq, Repr

/-- Modelled from the spec: the row-index bounds check guarding row reads
lives in `TableSqlModel::updateRowCache` and the Qt view layer, which are
not under `src/`; per the spec, `identifierForRow(i)` is defined only for
`0 <= i < rowCount()` and an out-of-range index is the `OutOfRange`
programming error.  In range, the identifier is the one
`ConnListModel::updateTableRow` queries (`rowConnId`). -/
def identifierForRow (st : ConnModelState) (i : Int) : Except ModelError Int :=
  if 0 ≤ i ∧ i < doSqlCount st then Except.ok (rowConnId st i)
  else Except.error ModelError.outOfRange

/-- C6: reading a row with an index outside `[0, rowCount())` fails with the
`OutOfRange` programming error; inside that interval the identifier-for-row
mapping is defined and equals `idMin + i`. -/
theorem identifierForRow_spec (st : ConnModelState) (i : Int) :
    (¬ (0 ≤ i ∧ i < doSqlCount st) →
      identifierForRow st i = Except.error ModelError.outOfRange) ∧
    ((0 ≤ i ∧ i < doSqlCount st) →
      identifierForRow st i = Except.ok (st.connIdMin + i)) := by
  constructor <;> intro h <;> simp [identifierForRow, h, rowConnId]

/-- Witness for C6: for the window `(5,12)` the index `99` is rejected as
out of range, while the index `2` maps to identifier `7`. -/
theorem identifierForRow_spec_witness :
    identifierForRow ⟨5, 12⟩ 99 = Except.error ModelError.outOfRange ∧
    identifierForRow ⟨5, 12⟩ 2 = Except.ok 7 := by
  refine ⟨(identifierForRow_spec ⟨5, 12⟩ 99).1 (by decide), ?_⟩
  have h := (identifierForRow_spec ⟨5, 12⟩ 2).2 ⟨by decide, by decide⟩
  rw [h]
  norm_num

/-- Is this event one of the structural-change notifications of the spec
(`rowsRemoved`, `rowsInserted`, or the reset)? -/
def isNotify : Event → Bool
  | Event.rowsRemoved _ _ => true
  | Event.rowsInserted _ _ => true
  | Event.modelReset => true
  | _ => false

/-- Holds (as `true`) iff the trace contains a cache invalidation and no
structural-change notification occurs before the first invalidation. -/
def cacheInvalidatedFirst : List Event → Bool
  | [] => false
  | e :: es =>
    if e = Event.invalidateCache then true
    else if isNotify e then false
    else cacheInvalidatedFirst es

/-- C7: every bound-changing call (`removeConnRows` for a trim,
`insertConnRows` for a grow, `resetConnRows` for a reset) invalidates the
single-entry row cache unconditionally, and the invalidation happens
before any structural-change notification of that edit. -/
theorem boundChange_invalidates_cache (st : ConnModelState)
    (idMin idMax endRow count : Int) :
    Event.invalidateCache ∈ (removeConnRows st idMin count).2 ∧
    Event.invalidateCache ∈ (insertConnRows st idMax endRow count).2 ∧
    Event.invalidateCache ∈ (resetConnRows st idMin idMax).2 ∧
    cacheInvalidatedFirst (removeConnRows st idMin count).2 = true ∧
    cacheInvalidatedFirst (insertConnRows st idMax endRow count).2 = true ∧
    cacheInvalidatedFirst (resetConnRows st idMin idMax).2 = true := by
  refine ⟨?_, ?_, ?_, ?_, ?_, ?_⟩ <;>
    simp [removeConnRows, insertConnRows, resetConnRows, resetNotifyTrace,
      cacheInvalidatedFirst, isNotify]

/-- Witness for C7: a concrete trim `(5,12) → (8,12)` invalidates the cache
before its removal notification. -/
theorem boundChange_invalidates_cache_witness :
    Event.invalidateCache ∈ (removeConnRows ⟨5, 12⟩ 8 3).2 ∧
    cacheInvalidatedFirst (removeConnRows ⟨5, 12⟩ 8 3).2 = true :=
  ⟨(boundChange_invalidates_cache ⟨5, 12⟩ 8 12 0 3).1,
   (boundChange_invalidates_cache ⟨5, 12⟩ 8 12 0 3).2.2.2.1⟩

/-! ## Row decoding (`ConnListModel::updateTableRow`) -/

/-- The `ip_addr_t` union: a 32-bit IPv4 value or a 128-bit IPv6 value. -/
inductive IpAddr where
  | v4 (addr : Int)
  | v6 (addr : Nat)
deriving DecidableEq, Repr

/-- Modelled from the spec: `NetUtil::arrayViewToIp6` is not under `src/`;
per the spec it packs a fixed-width (16-byte) byte sequence into a
128-bit value. -/
def arrayViewToIp6 (bytes : List Nat) : Nat :=
  (bytes.take 16).foldl (fun a b => a * 256 + b % 256) 0

/-- One raw fetched record, as read column by column from the prepared
statement in `ConnListModel::updateTableRow`.  `localIp4` is column 11
(`t.local_ip`), with `none` standing for SQL NULL — the code's IPv6
discriminant is `stmt.columnIsNull(11)`. -/
structure RawRecord where
  connId : Int
  appId : Int
  connTime : Int
  pid : Int
  reason : Int
  blocked : Bool
  inherited : Bool
  inbound : Bool
  ipProto : Int
  localPort : Int
  remotePort : Int
  localIp4 : Option Int
  remoteIp4 : Int
  localIp6 : List Nat
  remoteIp6 : List Nat
  appPath : String

/-- The decoded row (`ConnRow`). -/
structure ConnRow where
  connId : Int
  appId : Int
  connTime : Int
  pid : Int
  reason : Int
  blocked : Bool
  inherited : Bool
  inbound : Bool
  ipProto : Int
  localPort : Int
  remotePort : Int
  isIPv6 : Bool
  localIp : IpAddr
  remoteIp : IpAddr
  appPath : String

/-- The field assignments of `ConnListModel::updateTableRow` (lines 357-378):
`m_connRow.isIPv6 = stmt.columnIsNull(11)`; when false both addresses come
from the 32-bit integer columns 11 and 12, when true both come from the
byte-sequence columns 13 and 14 via `NetUtil::arrayViewToIp6`. -/
def decodeConnRow (stmt : RawRecord) : ConnRow :=
  let isIPv6 := stmt.localIp4.isNone
  { connId := stmt.connId
    appId := stmt.appId
    connTime := stmt.connTime
    pid := stmt.pid
    reason := stmt.reason
    blocked := stmt.blocked
    inherited := stmt.inherited
    inbound := stmt.inbound
    ipProto := stmt.ipProto
    localPort := stmt.localPort
    remotePort := stmt.remotePort
    isIPv6 := isIPv6
    localIp := if isIPv6 then IpAddr.v6 (arrayViewToIp6 stmt.localIp6)
               else IpAddr.v4 (stmt.localIp4.getD 0)
    remoteIp := if isIPv6 then IpAddr.v6 (arrayViewToIp6 stmt.remoteIp6)
                else IpAddr.v4 stmt.remoteIp4
    appPath := stmt.appPath }

/-- Embeds `ConnListModel::updateTableRow` as a whole: fetch the record for
`connIdMin() + row` and decode it; `none` models `prepareRow` failing. -/
def updateTableRow (st : ConnModelState) (queryRow : Int → Option RawRecord)
    (row : Int) : Option ConnRow :=
  (queryRow (rowConnId st row)).map decodeConnRow

theorem arrayViewToIp6_fold_bound (l : List Nat) :
    ∀ acc : Nat, l.foldl (fun a b => a * 256 + b % 256) acc < (acc + 1) * 256 ^ l.length := by
  induction l with
  | nil =>
    intro acc
    simp only [List.foldl_nil, List.length_nil, pow_zero, mul_one]
    omega
  | cons b l ih =>
    intro acc
    calc (b :: l).foldl (fun a b => a * 256 + b % 256) acc
        = l.foldl (fun a b => a * 256 + b % 256) (acc * 256 + b % 256) := rfl
      _ < (acc * 256 + b % 256 + 1) * 256 ^ l.length := ih _
      _ ≤ ((acc + 1) * 256) * 256 ^ l.length := by
          have hb : b % 256 < 256 := Nat.mod_lt _ (by omega)
          have : acc * 256 + b % 256 + 1 ≤ (acc + 1) * 256 := by nlinarith
          exact Nat.mul_le_mul_right _ this
      _ = (acc + 1) * 256 ^ (b :: l).length := by
          simp [List.length_cons, pow_succ]
          ring

/-- C8: row decoding branches on the record's IPv6 discriminant
(`columnIsNull(11)`): when true both addresses are decoded from the
byte-sequence columns into 128-bit values, when false both are decoded
from the 32-bit integer columns, and the same discriminant governs both
addresses, so a record is never mixed. -/
theorem decodeConnRow_addr_family (stmt : RawRecord) :
    ((decodeConnRow stmt).isIPv6 = stmt.localIp4.isNone) ∧
    ((decodeConnRow stmt).isIPv6 = true →
      (decodeConnRow stmt).localIp = IpAddr.v6 (arrayViewToIp6 stmt.localIp6) ∧
      (decodeConnRow stmt).remoteIp = IpAddr.v6 (arrayViewToIp6 stmt.remoteIp6)) ∧
    ((decodeConnRow stmt).isIPv6 = false →
      (decodeConnRow stmt).localIp = IpAddr.v4 (stmt.localIp4.getD 0) ∧
      (decodeConnRow stmt).remoteIp = IpAddr.v4 stmt.remoteIp4) ∧
    ((∃ a, (decodeConnRow stmt).localIp = IpAddr.v6 a) ↔
      (∃ a, (decodeConnRow stmt).remoteIp = IpAddr.v6 a)) ∧
    (∀ bytes : List Nat, arrayViewToIp6 bytes < 2 ^ 128) := by
  refine ⟨rfl, fun h => ?_, fun h => ?_, ?_, fun bytes => ?_⟩
  · have h' : stmt.localIp4.isNone = true := h
    simp [decodeConnRow, h']
  · have h' : stmt.localIp4.isNone = false := h
    simp [decodeConnRow, h']
  · by_cases h : stmt.localIp4.isNone <;> simp [decodeConnRow, h]
  · have hlen : (bytes.take 16).length ≤ 16 := by
      simp [List.length_take]
    calc arrayViewToIp6 bytes < (0 + 1) * 256 ^ (bytes.take 16).length :=
          arrayViewToIp6_fold_bound (bytes.take 16) 0
      _ = 256 ^ (bytes.take 16).length := by ring
      _ ≤ 256 ^ 16 := Nat.pow_le_pow_right (by omega) hlen
      _ = 2 ^ 128 := by norm_num

/-- A concrete IPv4 raw record used to witness the decode claims. -/
def sampleRecV4 : RawRecord :=
  { connId := 1, appId := 2, connTime := 3, pid := 4, reason := 5,
    blocked := false, inherited := false, inbound := true, ipProto := 6,
    localPort := 7, remotePort := 8, localIp4 := some 9, remoteIp4 := 10,
    localIp6 := [], remoteIp6 := [], appPath := "p" }

/-- Witness for C8: a record whose `local_ip` column is non-NULL decodes as
IPv4 on both addresses. -/
theorem decodeConnRow_addr_family_witness :
    (decodeConnRow sampleRecV4).isIPv6 = false ∧
    (decodeConnRow sampleRecV4).localIp = IpAddr.v4 9 ∧
    (decodeConnRow sampleRecV4).remoteIp = IpAddr.v4 10 := by
  have h := (decodeConnRow_addr_family sampleRecV4).2.2.1 rfl
  exact ⟨rfl, h.1, h.2⟩

/-! ## Host-name cache effect of `updateConnIdRange` -/

theorem clearHostCache_not_mem_updateConnRows (st : ConnModelState)
    (a b c d : Int) : Event.clearHostCache ∉ (updateConnRows st a b c d).2 := by
  by_cases h : (c < a ∨ c ≥ b) ∨ (d < b ∨ b = 0)
  · simp [updateConnRows, h, resetConnRows, resetNotifyTrace]
  · rw [updateConnRows_incremental st a b c d h]
    by_cases hr : toInt32 (c - a) > 0 <;> by_cases ha : toInt32 (d - b) > 0 <;>
      simp [hr, ha]

/-- C9: when `updateConnIdRange` observes a range that differs from the
stored one and the observed `idMax` is `0`, the host-name cache is cleared
before the rows are updated; for an observed range with `idMax ≠ 0`, or an
unchanged range, the host-name cache is left untouched. -/
theorem updateConnIdRange_hostCache (st : ConnModelState) (idMin idMax : Int) :
    (¬ (idMin = st.connIdMin ∧ idMax = st.connIdMax) → idMax = 0 →
      (updateConnIdRange st idMin idMax).2 =
        Event.clearHostCache ::
          (updateConnRows st st.connIdMin st.connIdMax idMin idMax).2) ∧
    ((idMax ≠ 0 ∨ (idMin = st.connIdMin ∧ idMax = st.connIdMax)) →
      Event.clearHostCache ∉ (updateConnIdRange st idMin idMax).2) := by
  constructor
  · intro hne h0
    subst h0
    simp [updateConnIdRange, hne]
  · intro hOr
    by_cases hch : idMin = st.connIdMin ∧ idMax = st.connIdMax
    · simp [updateConnIdRange, hch]
    · rcases hOr with h0 | h0
      · have hmem := clearHostCache_not_mem_updateConnRows st st.connIdMin st.connIdMax idMin idMax
        simp [updateConnIdRange, hch, h0, hmem]
      · exact absurd h0 hch

/-- Witness for C9: with stored window `(5,12)`, observing `(0,0)` clears the
host cache before the reset, while observing `(8,12)` leaves it untouched. -/
theorem updateConnIdRange_hostCache_witness :
    (updateConnIdRange ⟨5, 12⟩ 0 0).2 =
      [Event.clearHostCache, Event.invalidateCache, Event.modelReset] ∧
    Event.clearHostCache ∉ (updateConnIdRange ⟨5, 12⟩ 8 12).2 := by
  constructor
  · have h := (updateConnIdRange_hostCache ⟨5, 12⟩ 0 0).1 (by decide) rfl
    rw [h]
    decide
  · exact (updateConnIdRange_hostCache ⟨5, 12⟩ 8 12).2 (Or.inl (by decide))

/-! ## 32-bit narrowing of the counts -/

/-- C10: the removed count, added count and row count are computed from
64-bit identifiers but narrowed to 32-bit signed ints: differences within
`[-2^31, 2^31)` are preserved exactly, larger ones wrap modulo `2^32` into
`[-2^31, 2^31)`; `doSqlCount` and the counts of the edits emitted by
`updateConnRows` are exactly these narrowed differences. -/
theorem int32_narrowing (st : ConnModelState) :
    (∀ d : Int, -2 ^ 31 ≤ d → d < 2 ^ 31 → toInt32 d = d) ∧
    (∀ d : Int, (2 ^ 32 : Int) ∣ toInt32 d - d ∧
      -2 ^ 31 ≤ toInt32 d ∧ toInt32 d < 2 ^ 31) ∧
    (0 < st.connIdMax → doSqlCount st = toInt32 (st.connIdMax - st.connIdMin) + 1) ∧
    (∀ oldIdMin oldIdMax idMin idMax : Int,
      ¬ ((idMin < oldIdMin ∨ idMin ≥ oldIdMax) ∨ (idMax < oldIdMax ∨ oldIdMax = 0)) →
      (updateConnRows st oldIdMin oldIdMax idMin idMax).2 =
        (if toInt32 (idMin - oldIdMin) > 0 then
          [Event.aboutToRemoveRows 0 (toInt32 (idMin - oldIdMin) - 1),
           Event.invalidateCache,
           Event.rowsRemoved 0 (toInt32 (idMin - oldIdMin) - 1)]
         else []) ++
        (if toInt32 (idMax - oldIdMax) > 0 then
          [Event.aboutToInsertRows (toInt32 (oldIdMax - idMin + 1))
             (toInt32 (oldIdMax - idMin + 1) + toInt32 (idMax - oldIdMax) - 1),
           Event.invalidateCache,
           Event.rowsInserted (toInt32 (oldIdMax - idMin + 1))
             (toInt32 (oldIdMax - idMin + 1) + toInt32 (idMax - oldIdMax) - 1)]
         else [])) := by
  refine ⟨toInt32_eq_self,
    fun d => ⟨toInt32_dvd_sub d, toInt32_lb d, toInt32_ub d⟩,
    fun h => by rw [doSqlCount, if_neg (by omega)],
    fun oldIdMin oldIdMax idMin idMax h => ?_⟩
  rw [updateConnRows_incremental st oldIdMin oldIdMax idMin idMax h]

/-- Witness for C10: the small difference `3` is preserved exactly, the
large difference `2^32` wraps to a multiple of `2^32` away, and the row
count of the window `(5,12)` is the narrowed difference plus one. -/
theorem int32_narrowing_witness :
    toInt32 3 = 3 ∧ (2 ^ 32 : Int) ∣ toInt32 (2 ^ 32) - 2 ^ 32 ∧
    doSqlCount ⟨5, 12⟩ = toInt32 (12 - 5) + 1 := by
  refine ⟨(int32_narrowing ⟨5, 12⟩).1 3 (by decide) (by decide),
    ((int32_narrowing ⟨5, 12⟩).2.1 (2 ^ 32)).1, ?_⟩
  have h := (int32_narrowing ⟨5, 12⟩).2.2.1 (by decide)
  rw [h]

end Fort
